import Mathlib

/-!
Verification of the AI-Commits pipeline (`src/ai_commit.py`).

Strings are modelled as `List Char`.  Python string primitives used by the
script (`str.splitlines`, `str.strip`, `str.lower`, `in`, `startswith`,
`"sep".join`) are embedded below, then each pipeline step of the script is
translated and its specified properties are proved.
-/

set_option maxRecDepth 20000

namespace AICommit

/-- Line-boundary characters recognized by Python `str.splitlines`. -/
def isLineBreak (c : Char) : Bool :=
  c = '\n' || c = '\r' || c = Char.ofNat 11 || c = Char.ofNat 12 ||
  c = Char.ofNat 28 || c = Char.ofNat 29 || c = Char.ofNat 30 ||
  c = Char.ofNat 133 || c = Char.ofNat 8232 || c = Char.ofNat 8233

/-- Whitespace characters removed by Python `str.strip()` with no argument. -/
def pyIsSpace (c : Char) : Bool :=
  c = ' ' || c = '\t' || c = '\n' || c = '\r' || c = Char.ofNat 11 ||
  c = Char.ofNat 12 || c = Char.ofNat 28 || c = Char.ofNat 29 ||
  c = Char.ofNat 30 || c = Char.ofNat 31 || c = Char.ofNat 133 ||
  c = Char.ofNat 160 || c = Char.ofNat 5760 ||
  (8192 ≤ c.toNat && c.toNat ≤ 8202) ||
  c = Char.ofNat 8232 || c = Char.ofNat 8233 || c = Char.ofNat 8239 ||
  c = Char.ofNat 8287 || c = Char.ofNat 12288

/-- Worker for `pySplitlines`: `acc` holds the current line reversed and
`afterCR` records that the previous character was a `"\r"` whose line was
already emitted, so that an immediately following `"\n"` is part of the same
`"\r\n"` boundary.  A final empty segment after the last boundary is not
emitted (Python `str.splitlines` semantics). -/
def pySplitlinesGo : List Char → List Char → Bool → List (List Char)
  | [], acc, _ => if acc = [] then [] else [acc.reverse]
  | c :: rest, acc, afterCR =>
    if c = '\n' then
      if afterCR then pySplitlinesGo rest [] false
      else acc.reverse :: pySplitlinesGo rest [] false
    else if c = '\r' then acc.reverse :: pySplitlinesGo rest [] true
    else if isLineBreak c then acc.reverse :: pySplitlinesGo rest [] false
    else pySplitlinesGo rest (c :: acc) false

/-- Python `str.splitlines` on a `List Char` string. -/
def pySplitlines (s : List Char) : List (List Char) :=
  pySplitlinesGo s [] false

/-- Python `sep.join(xs)`. -/
def joinWith (sep : List Char) : List (List Char) → List Char
  | [] => []
  | [x] => x
  | x :: y :: xs => x ++ sep ++ joinWith sep (y :: xs)

/-- Python `s.startswith(p)`. -/
def startsWith (p s : List Char) : Bool :=
  List.isPrefixOf p s

/-- Python substring test `pat in s`. -/
def containsSub (pat : List Char) : List Char → Bool
  | [] => pat.isEmpty
  | c :: rest => startsWith pat (c :: rest) || containsSub pat rest

/-- Python `str.lower`, character by character (ASCII case mapping). -/
def pyLower (s : List Char) : List Char :=
  s.map Char.toLower

/-- The secret-keyword test of `strip_sensitive_lines` (line 59 of
`ai_commit.py`): the lowercased line contains `api_key`, `apikey`,
`secret` or `token`. -/
def hasSecretKw (line : List Char) : Bool :=
  containsSub ("api_key".toList) (pyLower line) ||
  containsSub ("apikey".toList) (pyLower line) ||
  containsSub ("secret".toList) (pyLower line) ||
  containsSub ("token".toList) (pyLower line)

/-- The env-file test of `strip_sensitive_lines` (line 61 of
`ai_commit.py`): the lowercased line contains `.env`. -/
def hasEnvRef (line : List Char) : Bool :=
  containsSub (".env".toList) (pyLower line)

/-- A line survives `strip_sensitive_lines` iff it matches neither drop rule:
(secret keyword AND starts with `+`) or (`.env` AND starts with `+++`/`---`). -/
def keepLine (line : List Char) : Bool :=
  !((hasSecretKw line && startsWith ("+".toList) line) ||
    (hasEnvRef line &&
      (startsWith ("+++".toList) line || startsWith ("---".toList) line)))

/-- The retained lines of a diff, in order. -/
def sanitizeLines (diff : List Char) : List (List Char) :=
  (pySplitlines diff).filter keepLine

/-- Embedding of `strip_sensitive_lines` (`ai_commit.py` lines 55-64):
split into lines, drop lines matching either rule, re-join with `"\n"`. -/
def strip_sensitive_lines (diff : List Char) : List Char :=
  joinWith ("\n".toList) (sanitizeLines diff)

/-- Embedding of the diff cap (`ai_commit.py` lines 128-130):
`if len(diff) > MAX_DIFF_CHARS: diff = diff[:MAX_DIFF_CHARS]; truncated = True`. -/
def capDiff (diff : List Char) (maxChars : Nat) : List Char × Bool :=
  if maxChars < diff.length then (diff.take maxChars, true) else (diff, false)

/-- Default of the `AICOMMIT_MAX_DIFF_CHARS` environment override. -/
def MAX_DIFF_CHARS : Nat := 40000

/-- Python `s.strip(chars)` generalized over a character predicate: remove
every leading and every trailing character satisfying `p`. -/
def stripWhile (p : Char → Bool) (s : List Char) : List Char :=
  (((s.dropWhile p).reverse).dropWhile p).reverse

/-- Python `s.strip()` with no argument: trim surrounding whitespace. -/
def pyStrip (s : List Char) : List Char :=
  stripWhile pyIsSpace s

/-- The straight double-quote character stripped by `strip('"')`. -/
def isDQuote (c : Char) : Bool := c = '"'

/-- The straight single-quote character, U+0027. -/
def squoteChar : Char := Char.ofNat 39

/-- Test for the straight single-quote stripped by the second `strip`. -/
def isSQuote (c : Char) : Bool := c = squoteChar

/-- The line-break collapse `" ".join(message.splitlines())` of line 141. -/
def collapseLines (s : List Char) : List Char :=
  joinWith (" ".toList) (pySplitlines s)

/-- Embedding of the post-processing of the model reply (`ai_commit.py`
lines 140-141): append `" (truncated diff)"` when the cap fired, then
`" ".join(message.splitlines()).strip().strip(chr(34)).strip(chr(39))`. -/
def post_process (message : List Char) (truncated : Bool) : List Char :=
  let m := if truncated then message ++ (" (truncated diff)".toList) else message
  stripWhile isSQuote (stripWhile isDQuote (pyStrip (collapseLines m)))

/-- A character that survives at the edge of every strip stage. -/
def cleanEdge (c : Char) : Bool :=
  !(pyIsSpace c || isDQuote c || isSQuote c)

/-- One element of `content["parts"]` in a model candidate: `some t` models a
dict part carrying a `"text"` entry `t`; `none` models any other part. -/
structure GeminiPart where
  text : Option (List Char)
deriving DecidableEq

/-- One response candidate; `content` is `none` when the candidate has no
usable `content` attribute (the code then substitutes an empty dict). -/
structure GeminiCand where
  content : Option (List GeminiPart)
deriving DecidableEq

/-- The decoded shape of a model response: the candidate list, the optional
`prompt_feedback.block_reason`, and the optional direct `text` accessor
(`none` covers a missing attribute, `[]` covers falsy empty text). -/
structure GeminiResp where
  candidates : List GeminiCand
  blockReason : Option (List Char)
  text : Option (List Char)
deriving DecidableEq

/-- The text fragments recovered from `cand.content["parts"]` across all
candidates (`ai_commit.py` lines 95-100). -/
def extractParts (cs : List GeminiCand) : List (List Char) :=
  (cs.map (fun c => (c.content.getD []).filterMap (fun p => p.text))).flatten

/-- The text recovered from a response that has candidates: the direct `text`
accessor when truthy, otherwise the joined and stripped part fragments. -/
def recoveredText (resp : GeminiResp) : List Char :=
  if resp.text.getD [] = [] then
    pyStrip (joinWith ("\n".toList) (extractParts resp.candidates))
  else resp.text.getD []

/-- Embedding of the response decoding of `call_gemini` (`ai_commit.py`
lines 88-103), given the structured response of the remote call. -/
def call_gemini (resp : GeminiResp) : Except (List Char) (List Char) :=
  if resp.candidates = [] then
    Except.error ("Resposta bloqueada pelo modelo (razão: ".toList ++
      resp.blockReason.getD ("unknown".toList) ++ "). Ajuste o diff/prompt.".toList)
  else if recoveredText resp = [] then
    Except.error ("Resposta do Gemini vazia.".toList)
  else Except.ok (pyStrip (recoveredText resp))

/-- Result of one `editor_edit` run: the returned (or raised) value, whether
a temporary file was created, and whether its deletion was attempted. -/
structure EditorRun where
  result : Except Unit (List Char)
  tempFileCreated : Bool
  removeAttempted : Bool

/-- Embedding of `editor_edit` (`ai_commit.py` lines 66-77).  `editor` is the
`EDITOR`/`VISUAL` environment value, `exitStatus` the editor subprocess's
exit status (never inspected: the call passes `check=False`), and `readBack`
the final contents of the temporary file at read-back time (`Except.error`
models a read failure, which propagates after the `finally` deletion). -/
def editor_edit (editor : Option (List Char)) (initial : List Char)
    (exitStatus : Int) (readBack : Except Unit (List Char)) : EditorRun :=
  match editor, exitStatus with
  | none, _ => ⟨Except.ok initial, false, false⟩
  | some _, _ =>
    match readBack with
    | Except.ok contents => ⟨Except.ok (pyStrip contents), true, true⟩
    | Except.error e => ⟨Except.error e, true, true⟩

/-- `PROMPT_TEMPLATE` text before the `lang` placeholder. -/
def tpl0 : List Char :=
  ("Você é um assistente que escreve mensagens de commit curtas e claras no padrão Conventional Commits.\nResponda APENAS com a linha de assunto (sem corpo), no idioma: ").toList

/-- `PROMPT_TEMPLATE` text between the `lang` and `commit_type` placeholders. -/
def tpl1 : List Char :=
  (".\nPreferências:\n- Tipo: ").toList

/-- `PROMPT_TEMPLATE` text between the `commit_type` placeholder and the
opening diff delimiter. -/
def tpl2head : List Char :=
  (" (feat, fix, chore, refactor, docs, test, perf, build, ci, style)\n- Máximo ~72 caracteres.\n- Descreva a mudança, não o arquivo; verbo no imperativo (ex.: \"add\", \"fix\", \"update\").\n- Inclua escopo quando fizer sentido (ex.: feat(user): ...).\n- NÃO inclua ponto final.\n\nSe a mudança for mista, escolha o tipo predominante; se incerto, use \"chore\".\n\nA seguir está o git diff (unificado, sem cores). Gere UMA linha:\n\n").toList

/-- `PROMPT_TEMPLATE` text between the `commit_type` and `diff` placeholders. -/
def tpl2 : List Char :=
  (" (feat, fix, chore, refactor, docs, test, perf, build, ci, style)\n- Máximo ~72 caracteres.\n- Descreva a mudança, não o arquivo; verbo no imperativo (ex.: \"add\", \"fix\", \"update\").\n- Inclua escopo quando fizer sentido (ex.: feat(user): ...).\n- NÃO inclua ponto final.\n\nSe a mudança for mista, escolha o tipo predominante; se incerto, use \"chore\".\n\nA seguir está o git diff (unificado, sem cores). Gere UMA linha:\n\n<diff>\n").toList

/-- `PROMPT_TEMPLATE` text after the `diff` placeholder. -/
def tpl3 : List Char :=
  ("\n</diff>\n").toList

/-- Embedding of `PROMPT_TEMPLATE.format(lang=..., commit_type=..., diff=...)`
(`ai_commit.py` lines 10-26 and 132): the template split at its three
placeholders, concatenated with the respective values. -/
def build_prompt (lang ctype diff : List Char) : List Char :=
  tpl0 ++ lang ++ tpl1 ++ ctype ++ tpl2 ++ diff ++ tpl3

/-- The rendered prompt text before the opening `<diff>` delimiter. -/
def promptHeader (lang ctype : List Char) : List Char :=
  tpl0 ++ lang ++ tpl1 ++ ctype ++ tpl2head

/-- The parsed command-line arguments of `main` (`ai_commit.py` lines 106-114). -/
structure Args where
  unstaged : Bool
  ctype : List Char
  lang : List Char
  noEdit : Bool
  model : List Char
  printOnly : Bool

/-- How a run of `main` ends: `exit code` models `sys.exit`/normal return,
`crash` models an uncaught exception (a failing editor read-back). -/
inductive RunOutcome
  | exit (code : Nat)
  | crash
deriving DecidableEq

/-- Observable effects of one run of `main`: the outcome, whether the remote
model was called, whether `git commit` was invoked, and the message printed
by the `--print-only` branch (line 151), if reached. -/
structure RunResult where
  outcome : RunOutcome
  geminiCalled : Bool
  commitCalled : Bool
  printedOnly : Option (List Char)
deriving DecidableEq

/-- Embedding of the pipeline of `main` from the diff retrieval on
(`ai_commit.py` lines 123-158).  `diff` is the text returned by `get_diff`,
`hasKey` whether `GOOGLE_API_KEY` is set, `gemini` the outcome of the remote
call on a given prompt, `editor` the outcome of `editor_edit` on a given
message, and `commitOk` whether the `git commit` subprocess succeeds. -/
def mainRun (args : Args) (maxChars : Nat) (diff : List Char) (hasKey : Bool)
    (gemini : List Char → Except (List Char) (List Char))
    (editor : List Char → Except Unit (List Char))
    (commitOk : Bool) : RunResult :=
  if pyStrip diff = [] then ⟨RunOutcome.exit 1, false, false, none⟩
  else if hasKey then
    match gemini (build_prompt args.lang args.ctype
        (capDiff (strip_sensitive_lines diff) maxChars).1) with
    | Except.error _ => ⟨RunOutcome.exit 1, true, false, none⟩
    | Except.ok gtext =>
      match (if args.noEdit then
               Except.ok (post_process gtext
                 (capDiff (strip_sensitive_lines diff) maxChars).2)
             else editor (post_process gtext
               (capDiff (strip_sensitive_lines diff) maxChars).2)) with
      | Except.error _ => ⟨RunOutcome.crash, true, false, none⟩
      | Except.ok fm =>
        if pyStrip (collapseLines fm) = [] then
          ⟨RunOutcome.exit 1, true, false, none⟩
        else if args.printOnly then
          ⟨RunOutcome.exit 0, true, false, some (pyStrip (collapseLines fm))⟩
        else if commitOk then ⟨RunOutcome.exit 0, true, true, none⟩
        else ⟨RunOutcome.exit 1, true, true, none⟩
  else ⟨RunOutcome.exit 1, false, false, none⟩

theorem startsWith_plus_of_triple {l : List Char} (h : startsWith ("+++".toList) l = true) :
    startsWith ("+".toList) l = true := by
  cases l with
  | nil => simp [startsWith, List.isPrefixOf] at h
  | cons c t =>
    simp [startsWith, List.isPrefixOf] at h ⊢
    exact h.1

/-- C1: `strip_sensitive_lines` is a line-by-line filter: the result is the
kept lines joined by newlines; the kept lines are a sublist of the input
lines (original order, each line byte-for-byte); every added line whose
lowercase content has a secret keyword is dropped; and every line matching
neither drop rule is retained. -/
theorem strip_sensitive_filter (diff : List Char) :
    strip_sensitive_lines diff = joinWith ("\n".toList) (sanitizeLines diff) ∧
    (sanitizeLines diff).Sublist (pySplitlines diff) ∧
    (∀ l ∈ pySplitlines diff, startsWith ("+".toList) l = true →
      hasSecretKw l = true → l ∉ sanitizeLines diff) ∧
    (∀ l ∈ pySplitlines diff,
      (hasSecretKw l && startsWith ("+".toList) l) = false →
      (hasEnvRef l && (startsWith ("+++".toList) l || startsWith ("---".toList) l)) = false →
      l ∈ sanitizeLines diff) := by
  refine ⟨rfl, List.filter_sublist _, ?_, ?_⟩
  · intro l _ hp hk hmem
    have hkeep := List.of_mem_filter hmem
    unfold keepLine at hkeep
    rw [hp, hk] at hkeep
    simp at hkeep
  · intro l hl h1 h2
    refine List.mem_filter.mpr ⟨hl, ?_⟩
    unfold keepLine
    rw [h1, h2]
    rfl

/-- Witness for C1 at a concrete diff: the secret added line is dropped and
a clean added line is retained. -/
theorem strip_sensitive_filter_witness :
    ("+token = 1".toList) ∉ sanitizeLines ("--- a/f\n+token = 1\n+ok".toList) ∧
    ("+ok".toList) ∈ sanitizeLines ("--- a/f\n+token = 1\n+ok".toList) :=
  ⟨(strip_sensitive_filter ("--- a/f\n+token = 1\n+ok".toList)).2.2.1
      ("+token = 1".toList) (by decide) (by decide) (by decide),
   (strip_sensitive_filter ("--- a/f\n+token = 1\n+ok".toList)).2.2.2
      ("+ok".toList) (by decide) (by decide) (by decide)⟩

/-- C2: for a diff strictly longer than the cap, `capDiff` returns output of
length exactly the cap with the truncation flag set; for a diff of length at
most the cap, the diff is unchanged and the flag stays false. -/
theorem capDiff_spec (diff : List Char) (maxChars : Nat) :
    (maxChars < diff.length →
      (capDiff diff maxChars).1.length = maxChars ∧ (capDiff diff maxChars).2 = true) ∧
    (diff.length ≤ maxChars → capDiff diff maxChars = (diff, false)) := by
  constructor
  · intro h
    simp [capDiff, h, List.length_take, Nat.min_eq_left (Nat.le_of_lt h)]
  · intro h
    simp [capDiff, Nat.not_lt.mpr h]

/-- Witness for C2 at a concrete diff and cap, both branches. -/
theorem capDiff_spec_witness :
    ((capDiff ("abcdef".toList) 3).1.length = 3 ∧ (capDiff ("abcdef".toList) 3).2 = true) ∧
    capDiff ("abc".toList) 3 = ("abc".toList, false) :=
  ⟨(capDiff_spec ("abcdef".toList) 3).1 (by decide),
   (capDiff_spec ("abc".toList) 3).2 (by decide)⟩

/-- C10: a `+++` file-header line with a secret keyword is dropped by the
secret rule (it starts with `+`), while a `---` header line with the same
keyword is retained unless it references an env-file path. -/
theorem header_lines_secret_rule (diff : List Char) :
    (∀ l ∈ pySplitlines diff, startsWith ("+++".toList) l = true →
      hasSecretKw l = true → l ∉ sanitizeLines diff) ∧
    (∀ l ∈ pySplitlines diff, startsWith ("---".toList) l = true →
      hasSecretKw l = true → hasEnvRef l = false → l ∈ sanitizeLines diff) := by
  constructor
  · intro l _ hp hk hmem
    have hp1 := startsWith_plus_of_triple hp
    have hkeep := List.of_mem_filter hmem
    unfold keepLine at hkeep
    rw [hp1, hk] at hkeep
    simp at hkeep
  · intro l hl hp _ he
    refine List.mem_filter.mpr ⟨hl, ?_⟩
    cases l with
    | nil => simp [startsWith, List.isPrefixOf] at hp
    | cons c t =>
      simp [startsWith, List.isPrefixOf] at hp
      obtain ⟨hc, -⟩ := hp
      subst hc
      unfold keepLine
      rw [he]
      have h3 : startsWith ("+".toList) ('-' :: t) = false := rfl
      rw [h3]
      simp

/-- Witness for C10 at a concrete two-header diff. -/
theorem header_lines_secret_rule_witness :
    ("+++ b/token_store.py".toList) ∉
      sanitizeLines ("--- a/token_store.py\n+++ b/token_store.py".toList) ∧
    ("--- a/token_store.py".toList) ∈
      sanitizeLines ("--- a/token_store.py\n+++ b/token_store.py".toList) :=
  ⟨(header_lines_secret_rule ("--- a/token_store.py\n+++ b/token_store.py".toList)).1
      ("+++ b/token_store.py".toList) (by decide) (by decide) (by decide),
   (header_lines_secret_rule ("--- a/token_store.py\n+++ b/token_store.py".toList)).2
      ("--- a/token_store.py".toList) (by decide) (by decide) (by decide) (by decide)⟩

theorem dropWhile_append_all {p : Char → Bool} {a : List Char} (l : List Char)
    (ha : ∀ c ∈ a, p c = true) :
    List.dropWhile p (a ++ l) = List.dropWhile p l := by
  induction a with
  | nil => rfl
  | cons c t ih =>
    have hc : p c = true := ha c (List.mem_cons_self c t)
    have ht : ∀ x ∈ t, p x = true := fun x hx => ha x (List.mem_cons_of_mem c hx)
    simp only [List.cons_append, List.dropWhile_cons, hc, if_true]
    exact ih ht

theorem dropWhile_all {p : Char → Bool} {a : List Char} (ha : ∀ c ∈ a, p c = true) :
    List.dropWhile p a = [] := by
  have h := dropWhile_append_all (p := p) (a := a) [] ha
  simpa using h

theorem dropWhile_of_head_false {p : Char → Bool} {s : List Char}
    (h : ∀ c, s.head? = some c → p c = false) :
    List.dropWhile p s = s := by
  cases s with
  | nil => rfl
  | cons c t =>
    have hc : p c = false := h c rfl
    simp [List.dropWhile_cons, hc]

theorem head_dropWhile_false {p : Char → Bool} {s t : List Char} {c : Char}
    (h : List.dropWhile p s = c :: t) : p c = false := by
  induction s with
  | nil => simp at h
  | cons a as ih =>
    by_cases hp : p a = true
    · exact ih (by simpa [List.dropWhile_cons, hp] using h)
    · rw [List.dropWhile_cons, if_neg hp] at h
      obtain ⟨rfl, -⟩ := List.cons.injEq a as c t ▸ h
      simpa using hp

theorem head?_append_ne {l m : List Char} (h : l ≠ []) :
    (l ++ m).head? = l.head? := by
  cases l with
  | nil => exact absurd rfl h
  | cons c t => rfl

theorem getLast?_append_ne (l : List Char) {m : List Char} (h : m ≠ []) :
    (l ++ m).getLast? = m.getLast? := by
  rw [← List.head?_reverse, ← List.head?_reverse m, List.reverse_append]
  exact head?_append_ne (by simpa using h)

theorem stripWhile_sandwich {p : Char → Bool} (a b s : List Char)
    (ha : ∀ c ∈ a, p c = true) (hb : ∀ c ∈ b, p c = true)
    (h1 : ∀ c, s.head? = some c → p c = false)
    (h2 : ∀ c, s.getLast? = some c → p c = false) :
    stripWhile p (a ++ s ++ b) = s := by
  cases s with
  | nil =>
    unfold stripWhile
    have hall : ∀ c ∈ a ++ b, p c = true := by
      intro c hc
      rcases List.mem_append.mp hc with h | h
      · exact ha c h
      · exact hb c h
    simp [dropWhile_all hall]
  | cons x xs =>
    have e1 : List.dropWhile p (a ++ (x :: xs) ++ b) = (x :: xs) ++ b := by
      rw [List.append_assoc, dropWhile_append_all _ ha]
      exact dropWhile_of_head_false (fun c hc => h1 c hc)
    have e2 : List.dropWhile p ((x :: xs) ++ b).reverse = (x :: xs).reverse := by
      rw [List.reverse_append,
        dropWhile_append_all _ (fun c hc => hb c (List.mem_reverse.mp hc))]
      refine dropWhile_of_head_false ?_
      intro c hc
      rw [List.head?_reverse] at hc
      exact h2 c hc
    unfold stripWhile
    rw [e1, e2, List.reverse_reverse]

theorem stripWhile_noop {p : Char → Bool} {s : List Char}
    (h1 : ∀ c, s.head? = some c → p c = false)
    (h2 : ∀ c, s.getLast? = some c → p c = false) :
    stripWhile p s = s := by
  have h := stripWhile_sandwich (p := p) [] [] s (by simp) (by simp) h1 h2
  simpa using h

theorem mem_stripWhile {p : Char → Bool} {s : List Char} {c : Char}
    (h : c ∈ stripWhile p s) : c ∈ s := by
  unfold stripWhile at h
  rw [List.mem_reverse] at h
  have h2 := (List.dropWhile_suffix p).sublist.mem h
  rw [List.mem_reverse] at h2
  exact (List.dropWhile_suffix p).sublist.mem h2

theorem getLast?_of_suffix {v w : List Char} (hs : v <:+ w) (hne : v ≠ []) :
    w.getLast? = v.getLast? := by
  obtain ⟨t, ht⟩ := hs
  rw [← ht]
  exact getLast?_append_ne t hne

theorem stripWhile_head_false {p : Char → Bool} {s : List Char} {c : Char}
    (h : (stripWhile p s).head? = some c) : p c = false := by
  unfold stripWhile at h
  rw [List.head?_reverse] at h
  have hvne : List.dropWhile p (List.dropWhile p s).reverse ≠ [] := by
    intro he
    rw [he] at h
    simp at h
  have hur : (List.dropWhile p s).reverse.getLast? = some c := by
    rw [getLast?_of_suffix (List.dropWhile_suffix p) hvne]
    exact h
  rw [List.getLast?_reverse] at hur
  cases hu : List.dropWhile p s with
  | nil => rw [hu] at hur; simp at hur
  | cons d u =>
    rw [hu] at hur
    have hd : d = c := by simpa using hur
    subst hd
    exact head_dropWhile_false hu

theorem stripWhile_getLast_false {p : Char → Bool} {s : List Char} {c : Char}
    (h : (stripWhile p s).getLast? = some c) : p c = false := by
  unfold stripWhile at h
  rw [List.getLast?_reverse] at h
  cases hv : List.dropWhile p (List.dropWhile p s).reverse with
  | nil => rw [hv] at h; simp at h
  | cons d u =>
    rw [hv] at h
    have : d = c := by simpa using h
    subst this
    exact head_dropWhile_false hv

theorem pySplitlinesGo_cons_no_break {c : Char} (t acc : List Char) (f : Bool)
    (hc : isLineBreak c = false) :
    pySplitlinesGo (c :: t) acc f = pySplitlinesGo t (c :: acc) false := by
  have h1 : c ≠ '\n' := by
    intro he
    rw [he] at hc
    simp [isLineBreak] at hc
  have h2 : c ≠ '\r' := by
    intro he
    rw [he] at hc
    simp [isLineBreak] at hc
  show (if c = '\n' then _ else if c = '\r' then _ else if isLineBreak c then _ else _) = _
  rw [if_neg h1, if_neg h2, if_neg (by simp [hc])]

theorem pySplitlinesGo_cons_newline (t acc : List Char) :
    pySplitlinesGo ('\n' :: t) acc false =
      acc.reverse :: pySplitlinesGo t [] false := by
  show (if ('\n' : Char) = '\n' then _ else _) = _
  rw [if_pos rfl]
  rfl

theorem pySplitlinesGo_no_break (s : List Char) (hs : ∀ c ∈ s, isLineBreak c = false)
    (acc : List Char) :
    pySplitlinesGo s acc false =
      if acc.reverse ++ s = [] then [] else [acc.reverse ++ s] := by
  induction s generalizing acc with
  | nil =>
    show (if acc = [] then ([] : List (List Char)) else [acc.reverse]) = _
    by_cases h : acc = [] <;> simp [h]
  | cons c t ih =>
    have hc : isLineBreak c = false := hs c (List.mem_cons_self c t)
    have ht : ∀ x ∈ t, isLineBreak x = false :=
      fun x hx => hs x (List.mem_cons_of_mem c hx)
    rw [pySplitlinesGo_cons_no_break t acc false hc, ih ht]
    have hne : acc.reverse ++ c :: t ≠ [] := by simp
    have hne2 : (c :: acc).reverse ++ t ≠ [] := by simp
    rw [if_neg hne2, if_neg hne]
    simp

theorem pySplitlines_no_break {s : List Char} (hs : ∀ c ∈ s, isLineBreak c = false) :
    pySplitlines s = if s = [] then [] else [s] := by
  unfold pySplitlines
  rw [pySplitlinesGo_no_break s hs []]
  simp

theorem collapseLines_no_break {s : List Char} (hs : ∀ c ∈ s, isLineBreak c = false) :
    collapseLines s = s := by
  unfold collapseLines
  rw [pySplitlines_no_break hs]
  by_cases h : s = []
  · simp [h, joinWith]
  · rw [if_neg h]
    rfl

theorem pySplitlinesGo_append_newline (a : List Char) (b acc : List Char)
    (ha : ∀ c ∈ a, isLineBreak c = false) :
    pySplitlinesGo (a ++ '\n' :: b) acc false =
      (acc.reverse ++ a) :: pySplitlinesGo b [] false := by
  induction a generalizing acc with
  | nil => simpa using pySplitlinesGo_cons_newline b acc
  | cons c t ih =>
    have hc : isLineBreak c = false := ha c (List.mem_cons_self c t)
    have ht : ∀ x ∈ t, isLineBreak x = false :=
      fun x hx => ha x (List.mem_cons_of_mem c hx)
    rw [List.cons_append, pySplitlinesGo_cons_no_break _ acc false hc, ih _ ht]
    simp

theorem collapseLines_single_newline {a b : List Char}
    (ha : ∀ c ∈ a, isLineBreak c = false) (hb : ∀ c ∈ b, isLineBreak c = false)
    (hbne : b ≠ []) :
    collapseLines (a ++ '\n' :: b) = a ++ ' ' :: b := by
  unfold collapseLines pySplitlines
  rw [pySplitlinesGo_append_newline a b [] ha]
  rw [pySplitlinesGo_no_break b hb [], if_neg (by simpa using hbne)]
  simp [joinWith]

theorem cleanEdge_spec {c : Char} (h : cleanEdge c = true) :
    pyIsSpace c = false ∧ isDQuote c = false ∧ isSQuote c = false := by
  unfold cleanEdge at h
  simp only [Bool.not_eq_true', Bool.or_eq_false_iff] at h
  exact ⟨h.1.1, h.1.2, h.2⟩

theorem edge_of_eq {P : Char → Prop} {o : Option Char} {d : Char}
    (ho : o = some d) (hd : P d) : ∀ c, o = some c → P c := by
  intro c hc
  rw [ho] at hc
  injection hc with h
  subst h
  exact hd

theorem strips_clean (m : List Char)
    (hh : ∀ c, m.head? = some c → cleanEdge c = true)
    (hl : ∀ c, m.getLast? = some c → cleanEdge c = true) :
    stripWhile isSQuote (stripWhile isDQuote (pyStrip m)) = m := by
  unfold pyStrip
  rw [stripWhile_noop (fun c hc => (cleanEdge_spec (hh c hc)).1)
      (fun c hc => (cleanEdge_spec (hl c hc)).1),
    stripWhile_noop (fun c hc => (cleanEdge_spec (hh c hc)).2.1)
      (fun c hc => (cleanEdge_spec (hl c hc)).2.1),
    stripWhile_noop (fun c hc => (cleanEdge_spec (hh c hc)).2.2)
      (fun c hc => (cleanEdge_spec (hl c hc)).2.2)]

theorem post_process_clean (m : List Char)
    (hbm : ∀ c ∈ m, isLineBreak c = false)
    (hh : ∀ c, m.head? = some c → cleanEdge c = true)
    (hl : ∀ c, m.getLast? = some c → cleanEdge c = true) :
    post_process m false = m := by
  show stripWhile isSQuote (stripWhile isDQuote (pyStrip (collapseLines m))) = m
  rw [collapseLines_no_break hbm]
  exact strips_clean m hh hl

/-- C5 counterexample: on input surrounded by a doubled layer of straight
quotes, `post_process` removes both layers, not exactly one; and input
surrounded by curly quotes keeps them, they are not stripped. -/
theorem post_process_quote_counterexample :
    post_process ("\"\"hi\"\"".toList) false = "hi".toList ∧
    post_process ("\"\"hi\"\"".toList) false ≠ "\"hi\"".toList ∧
    post_process ([Char.ofNat 8220] ++ "hi".toList ++ [Char.ofNat 8221]) false =
      [Char.ofNat 8220] ++ "hi".toList ++ [Char.ofNat 8221] ∧
    post_process ([Char.ofNat 8220] ++ "hi".toList ++ [Char.ofNat 8221]) false ≠
      "hi".toList := by
  refine ⟨by decide, by decide, by decide, by decide⟩

/-- C5 (amended): with the flag unset, `post_process` collapses each internal
line break into a single space, trims surrounding whitespace, then strips ALL
leading and trailing straight double-quote characters and then all straight
single-quote characters: one surrounding layer of straight quotes is removed,
a doubled layer is removed entirely, and curly quotes are never stripped. -/
theorem post_process_amended (s a b : List Char)
    (hs : ∀ c ∈ s, isLineBreak c = false)
    (hh : ∀ c, s.head? = some c → cleanEdge c = true)
    (hl : ∀ c, s.getLast? = some c → cleanEdge c = true)
    (hA : ∀ c ∈ a, isLineBreak c = false)
    (hB : ∀ c ∈ b, isLineBreak c = false)
    (hha : ∀ c, a.head? = some c → cleanEdge c = true)
    (hlb : ∀ c, b.getLast? = some c → cleanEdge c = true)
    (hane : a ≠ []) (hbne : b ≠ []) :
    post_process ('"' :: s ++ ['"']) false = s ∧
    post_process ('"' :: '"' :: s ++ ['"', '"']) false = s ∧
    post_process (Char.ofNat 8220 :: s ++ [Char.ofNat 8221]) false =
      Char.ofNat 8220 :: s ++ [Char.ofNat 8221] ∧
    post_process (a ++ '\n' :: b) false = a ++ ' ' :: b := by
  have hq : isLineBreak '"' = false := by decide
  refine ⟨?_, ?_, ?_, ?_⟩
  · show stripWhile isSQuote
      (stripWhile isDQuote (pyStrip (collapseLines ('"' :: s ++ ['"'])))) = s
    rw [collapseLines_no_break (by
      intro c hc
      rcases List.mem_append.mp hc with h | h
      · rcases List.mem_cons.mp h with rfl | h
        · exact hq
        · exact hs c h
      · rcases List.mem_singleton.mp h with rfl
        exact hq)]
    have hhd : ('"' :: s ++ ['"']).head? = some '"' := rfl
    have hlt : ('"' :: s ++ ['"']).getLast? = some '"' :=
      getLast?_append_ne _ (by simp)
    unfold pyStrip
    rw [stripWhile_noop (edge_of_eq hhd (by decide)) (edge_of_eq hlt (by decide))]
    rw [show ('"' :: s ++ ['"'] : List Char) = ['"'] ++ s ++ ['"'] from rfl]
    rw [stripWhile_sandwich ['"'] ['"'] s (by decide) (by decide)
      (fun c hc => (cleanEdge_spec (hh c hc)).2.1)
      (fun c hc => (cleanEdge_spec (hl c hc)).2.1)]
    exact stripWhile_noop (fun c hc => (cleanEdge_spec (hh c hc)).2.2)
      (fun c hc => (cleanEdge_spec (hl c hc)).2.2)
  · show stripWhile isSQuote
      (stripWhile isDQuote (pyStrip (collapseLines ('"' :: '"' :: s ++ ['"', '"'])))) = s
    rw [collapseLines_no_break (by
      intro c hc
      rcases List.mem_append.mp hc with h | h
      · rcases List.mem_cons.mp h with rfl | h
        · exact hq
        · rcases List.mem_cons.mp h with rfl | h
          · exact hq
          · exact hs c h
      · rcases List.mem_cons.mp h with rfl | h
        · exact hq
        · rcases List.mem_singleton.mp h with rfl
          exact hq)]
    have hhd : ('"' :: '"' :: s ++ ['"', '"']).head? = some '"' := rfl
    have hlt : ('"' :: '"' :: s ++ ['"', '"']).getLast? = some '"' :=
      getLast?_append_ne _ (by simp)
    unfold pyStrip
    rw [stripWhile_noop (edge_of_eq hhd (by decide)) (edge_of_eq hlt (by decide))]
    rw [show ('"' :: '"' :: s ++ ['"', '"'] : List Char) = ['"', '"'] ++ s ++ ['"', '"']
      from rfl]
    rw [stripWhile_sandwich ['"', '"'] ['"', '"'] s (by decide) (by decide)
      (fun c hc => (cleanEdge_spec (hh c hc)).2.1)
      (fun c hc => (cleanEdge_spec (hl c hc)).2.1)]
    exact stripWhile_noop (fun c hc => (cleanEdge_spec (hh c hc)).2.2)
      (fun c hc => (cleanEdge_spec (hl c hc)).2.2)
  · refine post_process_clean _ (by
      intro c hc
      rcases List.mem_append.mp hc with h | h
      · rcases List.mem_cons.mp h with rfl | h
        · decide
        · exact hs c h
      · rcases List.mem_singleton.mp h with rfl
        decide) ?_ ?_
    · exact edge_of_eq rfl (by decide)
    · exact edge_of_eq (getLast?_append_ne _ (by simp)) (by decide)
  · show stripWhile isSQuote
      (stripWhile isDQuote (pyStrip (collapseLines (a ++ '\n' :: b)))) = a ++ ' ' :: b
    rw [collapseLines_single_newline hA hB hbne]
    refine strips_clean _ ?_ ?_
    · intro c hc
      rw [head?_append_ne hane] at hc
      exact hha c hc
    · intro c hc
      rw [getLast?_append_ne a (by simp)] at hc
      rw [show (' ' :: b : List Char) = [' '] ++ b from rfl,
        getLast?_append_ne [' '] hbne] at hc
      exact hlb c hc

/-- Witness for C5 (amended) at concrete clean strings. -/
theorem post_process_amended_witness :
    post_process ('"' :: "hi".toList ++ ['"']) false = "hi".toList ∧
    post_process ('"' :: '"' :: "hi".toList ++ ['"', '"']) false = "hi".toList ∧
    post_process (Char.ofNat 8220 :: "hi".toList ++ [Char.ofNat 8221]) false =
      Char.ofNat 8220 :: "hi".toList ++ [Char.ofNat 8221] ∧
    post_process ("a".toList ++ '\n' :: "b".toList) false =
      "a".toList ++ ' ' :: "b".toList :=
  post_process_amended ("hi".toList) ("a".toList) ("b".toList)
    (by decide) (edge_of_eq rfl (by decide)) (edge_of_eq rfl (by decide))
    (by decide) (by decide) (edge_of_eq rfl (by decide)) (edge_of_eq rfl (by decide))
    (by decide) (by decide)

/-- C6: `post_process` with the flag unset is idempotent on any input that is
a single line (no line-break characters) and whose trimmed form is not
surrounded by straight quote characters. -/
theorem post_process_idem (x : List Char)
    (hline : ∀ c ∈ x, isLineBreak c = false)
    (hq1 : ∀ c, (pyStrip x).head? = some c → isDQuote c = false ∧ isSQuote c = false)
    (hq2 : ∀ c, (pyStrip x).getLast? = some c → isDQuote c = false ∧ isSQuote c = false) :
    post_process (post_process x false) false = post_process x false := by
  have hP : post_process x false = pyStrip x := by
    show stripWhile isSQuote (stripWhile isDQuote (pyStrip (collapseLines x))) = pyStrip x
    rw [collapseLines_no_break hline]
    rw [stripWhile_noop (fun c hc => (hq1 c hc).1) (fun c hc => (hq2 c hc).1)]
    exact stripWhile_noop (fun c hc => (hq1 c hc).2) (fun c hc => (hq2 c hc).2)
  rw [hP]
  have hb2 : ∀ c ∈ pyStrip x, isLineBreak c = false :=
    fun c hc => hline c (mem_stripWhile hc)
  show stripWhile isSQuote (stripWhile isDQuote (pyStrip (collapseLines (pyStrip x)))) =
    pyStrip x
  rw [collapseLines_no_break hb2]
  have h2 : pyStrip (pyStrip x) = pyStrip x := by
    unfold pyStrip
    exact stripWhile_noop (fun c hc => stripWhile_head_false hc)
      (fun c hc => stripWhile_getLast_false hc)
  rw [h2]
  rw [stripWhile_noop (fun c hc => (hq1 c hc).1) (fun c hc => (hq2 c hc).1)]
  exact stripWhile_noop (fun c hc => (hq1 c hc).2) (fun c hc => (hq2 c hc).2)

/-- Witness for C6 at a concrete single-line unquoted message. -/
theorem post_process_idem_witness :
    post_process (post_process ("fix: update docs".toList) false) false =
      post_process ("fix: update docs".toList) false :=
  post_process_idem ("fix: update docs".toList) (by decide)
    (edge_of_eq (d := 'f') (by decide) (by decide))
    (edge_of_eq (d := 's') (by decide) (by decide))

/-- C7: with no candidates, `call_gemini` fails with an error whose message
contains the block reason; with candidates but no recoverable text it fails
with the descriptive nonempty error `Resposta do Gemini vazia.` instead of
returning empty text. -/
theorem call_gemini_errors :
    (∀ (resp : GeminiResp) (r : List Char), resp.candidates = [] →
      resp.blockReason = some r →
      ∃ e, call_gemini resp = Except.error e ∧ r <:+: e) ∧
    (∀ resp : GeminiResp, resp.candidates ≠ [] → resp.text.getD [] = [] →
      pyStrip (joinWith ("\n".toList) (extractParts resp.candidates)) = [] →
      call_gemini resp = Except.error ("Resposta do Gemini vazia.".toList) ∧
        ("Resposta do Gemini vazia.".toList ≠ ([] : List Char))) := by
  constructor
  · intro resp r h1 h2
    refine ⟨"Resposta bloqueada pelo modelo (razão: ".toList ++ r ++
      "). Ajuste o diff/prompt.".toList, ?_, ?_⟩
    · unfold call_gemini
      rw [if_pos h1, h2]
      rfl
    · exact ⟨"Resposta bloqueada pelo modelo (razão: ".toList,
        "). Ajuste o diff/prompt.".toList, rfl⟩
  · intro resp h1 h2 h3
    refine ⟨?_, by decide⟩
    have hr : recoveredText resp = [] := by
      unfold recoveredText
      rw [if_pos h2]
      exact h3
    unfold call_gemini
    rw [if_neg h1, if_pos hr]

/-- Witness for C7: a blocked response carrying reason `SAFETY`, and a
response with one text-free candidate. -/
theorem call_gemini_errors_witness :
    (∃ e, call_gemini ⟨[], some ("SAFETY".toList), none⟩ = Except.error e ∧
      ("SAFETY".toList) <:+: e) ∧
    (call_gemini ⟨[⟨none⟩], none, none⟩ =
      Except.error ("Resposta do Gemini vazia.".toList) ∧
      ("Resposta do Gemini vazia.".toList ≠ ([] : List Char))) :=
  ⟨call_gemini_errors.1 ⟨[], some ("SAFETY".toList), none⟩ ("SAFETY".toList) rfl rfl,
   call_gemini_errors.2 ⟨[⟨none⟩], none, none⟩ (List.cons_ne_nil _ _) rfl rfl⟩

/-- C8 counterexample: with an editor configured and final temporary-file
contents `"  hi \n"`, `editor_edit` returns the stripped string `"hi"`, not
the file's final contents. -/
theorem editor_edit_counterexample :
    (editor_edit (some ("vi".toList)) ("x".toList) 0
      (Except.ok ("  hi \n".toList))).result = Except.ok ("hi".toList) ∧
    ("hi".toList : List Char) ≠ "  hi \n".toList :=
  ⟨rfl, by decide⟩

/-- C8 (amended): with no editor configured the text is returned unchanged
and no temporary file is involved; with an editor configured the returned
value is the whitespace-stripped final contents of the temporary file,
independent of the editor subprocess's exit status, and deletion of the
temporary file is attempted on every exit path, including when the
read-back fails (the failure then propagates). -/
theorem editor_edit_amended :
    (∀ (i : List Char) (st : Int) (rb : Except Unit (List Char)),
      editor_edit none i st rb = ⟨Except.ok i, false, false⟩) ∧
    (∀ (e i : List Char) (st : Int) (c : List Char),
      editor_edit (some e) i st (Except.ok c) =
        ⟨Except.ok (pyStrip c), true, true⟩) ∧
    (∀ (e i : List Char) (st : Int) (err : Unit),
      editor_edit (some e) i st (Except.error err) =
        ⟨Except.error err, true, true⟩) ∧
    (∀ (ed : Option (List Char)) (i : List Char) (s1 s2 : Int)
      (rb : Except Unit (List Char)),
      editor_edit ed i s1 rb = editor_edit ed i s2 rb) := by
  refine ⟨fun i st rb => rfl, fun e i st c => rfl, fun e i st err => rfl, ?_⟩
  intro ed i s1 s2 rb
  cases ed <;> rfl

/-- C9: `build_prompt` is a deterministic function of language, commit type
and diff, and embeds the diff verbatim between the literal delimiters
`<diff>` and `</diff>`. -/
theorem build_prompt_verbatim (lang ctype diff : List Char) :
    build_prompt lang ctype diff =
      promptHeader lang ctype ++ "<diff>\n".toList ++ diff ++ "\n</diff>\n".toList ∧
    (∀ l2 t2 d2, lang = l2 → ctype = t2 → diff = d2 →
      build_prompt lang ctype diff = build_prompt l2 t2 d2) := by
  constructor
  · have hsplit : tpl2 = tpl2head ++ ("<diff>\n".toList) := by decide
    have hclose : tpl3 = ("\n</diff>\n".toList) := by decide
    unfold build_prompt promptHeader
    rw [hsplit, hclose]
    simp [List.append_assoc]
  · intro l2 t2 d2 h1 h2 h3
    rw [h1, h2, h3]

/-- Witness for C9 at concrete language, type and diff. -/
theorem build_prompt_verbatim_witness :
    build_prompt ("en".toList) ("fix".toList) ("+x".toList) =
      promptHeader ("en".toList) ("fix".toList) ++ "<diff>\n".toList ++
        "+x".toList ++ "\n</diff>\n".toList ∧
    build_prompt ("en".toList) ("fix".toList) ("+x".toList) =
      build_prompt ("en".toList) ("fix".toList) ("+x".toList) :=
  ⟨(build_prompt_verbatim ("en".toList) ("fix".toList) ("+x".toList)).1,
   (build_prompt_verbatim ("en".toList) ("fix".toList) ("+x".toList)).2
     ("en".toList) ("fix".toList) ("+x".toList) rfl rfl rfl⟩

/-- C3: when the retrieved diff is empty after trimming whitespace (staged
mode, `--unstaged` not given), the run exits with status 1 and neither the
remote model call nor the commit operation is invoked. -/
theorem empty_diff_exits (args : Args) (maxChars : Nat) (diff : List Char)
    (hasKey : Bool) (gemini : List Char → Except (List Char) (List Char))
    (editor : List Char → Except Unit (List Char)) (commitOk : Bool)
    (_hu : args.unstaged = false) (h : pyStrip diff = []) :
    (mainRun args maxChars diff hasKey gemini editor commitOk).outcome =
      RunOutcome.exit 1 ∧
    (mainRun args maxChars diff hasKey gemini editor commitOk).geminiCalled = false ∧
    (mainRun args maxChars diff hasKey gemini editor commitOk).commitCalled = false := by
  unfold mainRun
  rw [if_pos h]
  exact ⟨rfl, rfl, rfl⟩

/-- Witness for C3: an all-whitespace staged diff. -/
theorem empty_diff_exits_witness :
    (mainRun ⟨false, "chore".toList, "pt-BR".toList, false,
        "gemini-1.5-flash".toList, false⟩ 40000 (" \n".toList) true
      (fun _ => Except.error []) (fun m => Except.ok m) true).outcome =
      RunOutcome.exit 1 ∧
    (mainRun ⟨false, "chore".toList, "pt-BR".toList, false,
        "gemini-1.5-flash".toList, false⟩ 40000 (" \n".toList) true
      (fun _ => Except.error []) (fun m => Except.ok m) true).geminiCalled = false ∧
    (mainRun ⟨false, "chore".toList, "pt-BR".toList, false,
        "gemini-1.5-flash".toList, false⟩ 40000 (" \n".toList) true
      (fun _ => Except.error []) (fun m => Except.ok m) true).commitCalled = false :=
  empty_diff_exits ⟨false, "chore".toList, "pt-BR".toList, false,
      "gemini-1.5-flash".toList, false⟩ 40000 (" \n".toList) true
    (fun _ => Except.error []) (fun m => Except.ok m) true rfl (by decide)

/-- C4: with `--print-only` the commit operation is never invoked, whatever
the final message is, and a successful run prints the final message. -/
theorem print_only_no_commit (args : Args) (maxChars : Nat) (diff : List Char)
    (hasKey : Bool) (gemini : List Char → Except (List Char) (List Char))
    (editor : List Char → Except Unit (List Char)) (commitOk : Bool)
    (h : args.printOnly = true) :
    (mainRun args maxChars diff hasKey gemini editor commitOk).commitCalled = false ∧
    ((mainRun args maxChars diff hasKey gemini editor commitOk).outcome =
        RunOutcome.exit 0 →
      ∃ m, (mainRun args maxChars diff hasKey gemini editor commitOk).printedOnly =
        some m) := by
  unfold mainRun
  simp only [h]
  split
  all_goals try exact ⟨rfl, fun hx => absurd hx (by decide)⟩
  all_goals split
  all_goals try exact ⟨rfl, fun hx => absurd hx (by decide)⟩
  all_goals split
  all_goals try exact ⟨rfl, fun hx => absurd hx (by decide)⟩
  all_goals split
  all_goals try exact ⟨rfl, fun hx => absurd hx (by decide)⟩
  all_goals split
  all_goals try exact ⟨rfl, fun hx => absurd hx (by decide)⟩
  all_goals exact ⟨rfl, fun hx => ⟨_, rfl⟩⟩

/-- Witness for C4: a print-only run that reaches the print branch. -/
theorem print_only_no_commit_witness :
    (mainRun ⟨false, "chore".toList, "pt-BR".toList, true,
        "gemini-1.5-flash".toList, true⟩ 40000 ("+x".toList) true
      (fun _ => Except.ok ("msg".toList)) (fun m => Except.ok m) true).commitCalled =
      false ∧
    ((mainRun ⟨false, "chore".toList, "pt-BR".toList, true,
        "gemini-1.5-flash".toList, true⟩ 40000 ("+x".toList) true
      (fun _ => Except.ok ("msg".toList)) (fun m => Except.ok m) true).outcome =
        RunOutcome.exit 0 →
      ∃ m, (mainRun ⟨false, "chore".toList, "pt-BR".toList, true,
          "gemini-1.5-flash".toList, true⟩ 40000 ("+x".toList) true
        (fun _ => Except.ok ("msg".toList)) (fun m => Except.ok m) true).printedOnly =
          some m) :=
  print_only_no_commit ⟨false, "chore".toList, "pt-BR".toList, true,
      "gemini-1.5-flash".toList, true⟩ 40000 ("+x".toList) true
    (fun _ => Except.ok ("msg".toList)) (fun m => Except.ok m) true rfl

end AICommit
